import Mathlib

/-!
# Verification of the PILER-CR output parser

A shallow embedding of `src/lib.rs` (crate `pilercr-parser`), a nom-based
parser for the report format of the PILER-CR CRISPR annotation tool.

Strings are embedded as `List Char` (the parser walks `&str` by characters).
Each nom parser becomes a function from the remaining input to an optional
`(remainder, value)` pair; `none` is nom's recoverable `Err`, which the
combinators propagate to the caller.  Post-processing code in the source
can also *panic* (`assert_eq!`, `.unwrap()`, and debug-checked `usize`
subtraction); a panic aborts the process instead of returning an error, and
is modelled by the distinguished result `PRes.panicked`.

`usize` values are embedded as `Nat`.  The two places where machine width
is observable for realizable inputs are kept: `str::parse::<usize>` fails
(and the source's `.unwrap()` panics) when a digit run denotes a value
`≥ 2^64`, and subtraction panics on underflow (debug overflow checks).
Additions of in-memory string lengths cannot overflow `usize` for inputs
that fit in an address space and are embedded as plain `Nat` addition.
-/

namespace Pilercr

/-- Characters matched by nom's `multispace0` / `multispace1`:
space, tab, carriage return, line feed. -/
def isMultispace (c : Char) : Bool :=
  c == ' ' || c == '\t' || c == '\r' || c == '\n'

/-- Rust's `char::is_whitespace` (the Unicode `White_Space` property), the
predicate used by the source's `not_space` via
`split_at_position_complete(char::is_whitespace)`. -/
def rustIsWhitespace (c : Char) : Bool :=
  [0x09, 0x0A, 0x0B, 0x0C, 0x0D, 0x20, 0x85, 0xA0, 0x1680,
   0x2000, 0x2001, 0x2002, 0x2003, 0x2004, 0x2005, 0x2006, 0x2007, 0x2008,
   0x2009, 0x200A, 0x2028, 0x2029, 0x202F, 0x205F, 0x3000].contains c.toNat

/-- Result of a fallible step of the source: `ok remainder value` is nom's
`Ok((remainder, value))`, `err` is nom's recoverable `Err(..)` returned to
the caller, and `panicked` models a Rust panic (process abort) raised by
`assert_eq!`, `.unwrap()` or checked integer arithmetic. -/
inductive PRes (α : Type) where
  | ok : List Char → α → PRes α
  | err : PRes α
  | panicked : PRes α
deriving DecidableEq

/-- nom `multispace0`: consume the longest (possibly empty) run of
space/tab/CR/LF.  Never fails. -/
def multispace0 (s : List Char) : Option (List Char × List Char) :=
  some (s.dropWhile isMultispace, s.takeWhile isMultispace)

/-- nom `multispace1`: like `multispace0` but fails on an empty run. -/
def multispace1 (s : List Char) : Option (List Char × List Char) :=
  if s.takeWhile isMultispace = [] then none
  else some (s.dropWhile isMultispace, s.takeWhile isMultispace)

/-- nom `digit0`: the longest (possibly empty) run of ASCII digits. -/
def digit0 (s : List Char) : Option (List Char × List Char) :=
  some (s.dropWhile Char.isDigit, s.takeWhile Char.isDigit)

/-- nom `digit1`: the longest run of ASCII digits; fails if empty. -/
def digit1 (s : List Char) : Option (List Char × List Char) :=
  if s.takeWhile Char.isDigit = [] then none
  else some (s.dropWhile Char.isDigit, s.takeWhile Char.isDigit)

/-- nom `alpha0`: the longest (possibly empty) run of ASCII letters. -/
def alpha0 (s : List Char) : Option (List Char × List Char) :=
  some (s.dropWhile Char.isAlpha, s.takeWhile Char.isAlpha)

/-- The source's `not_space`:
`input.split_at_position_complete(char::is_whitespace)` — the longest
(possibly empty) run of non-whitespace characters.  Never fails. -/
def not_space (s : List Char) : Option (List Char × List Char) :=
  some (s.dropWhile (fun c => !rustIsWhitespace c),
        s.takeWhile (fun c => !rustIsWhitespace c))

/-- nom `line_ending`: `"\n"` or `"\r\n"`. -/
def line_ending (s : List Char) : Option (List Char × List Char) :=
  match s with
  | '\n' :: rest => some (rest, ['\n'])
  | '\r' :: '\n' :: rest => some (rest, ['\r', '\n'])
  | _ => none

/-- nom (complete) `not_line_ending`: everything before the next `'\r'` or
`'\n'` (possibly all remaining input); a lone `'\r'` not followed by `'\n'`
is an error. -/
def not_line_ending (s : List Char) : Option (List Char × List Char) :=
  match s.dropWhile (fun c => !(c == '\r' || c == '\n')) with
  | '\r' :: rest2 =>
    match rest2 with
    | '\n' :: _ =>
      some (s.dropWhile (fun c => !(c == '\r' || c == '\n')),
            s.takeWhile (fun c => !(c == '\r' || c == '\n')))
    | _ => none
  | rest =>
    some (rest, s.takeWhile (fun c => !(c == '\r' || c == '\n')))

/-- nom `tag`: match a literal character sequence, returning the remainder. -/
def dropTag : List Char → List Char → Option (List Char)
  | [], s => some s
  | t :: ts, c :: cs => if t = c then dropTag ts cs else none
  | _ :: _, [] => none

/-- The source's `skip_one_line`: `pair(not_line_ending, line_ending)`. -/
def skip_one_line (s : List Char) : Option (List Char) :=
  (not_line_ending s).bind fun p1 =>
  (line_ending p1.1).map fun p2 => p2.1

/-- The source's `skip_empty_line`: exactly one line terminator. -/
def skip_empty_line (s : List Char) : Option (List Char) :=
  (line_ending s).map fun p => p.1

/-- The source's `skip_header`: the fixed 11-line preamble
(line, line, blank, line, blank, blank, blank, line, blank, blank, blank). -/
def skip_header (s : List Char) : Option (List Char) :=
  (skip_one_line s).bind fun s =>
  (skip_one_line s).bind fun s =>
  (skip_empty_line s).bind fun s =>
  (skip_one_line s).bind fun s =>
  (skip_empty_line s).bind fun s =>
  (skip_empty_line s).bind fun s =>
  (skip_empty_line s).bind fun s =>
  (skip_one_line s).bind fun s =>
  (skip_empty_line s).bind fun s =>
  (skip_empty_line s).bind fun s =>
  skip_empty_line s

/-- Optional leading sign of nom's `recognize_float`. -/
def nomSignOpt (s : List Char) : List Char :=
  match s with
  | '+' :: rest => rest
  | '-' :: rest => rest
  | _ => s

/-- Mantissa of nom's `recognize_float`:
`alt((digit1 (('.') (digit1)?)? , ('.') digit1))`. -/
def floatBody (s : List Char) : Option (List Char) :=
  match digit1 s with
  | some (s1, _) =>
    match s1 with
    | '.' :: s2 =>
      match digit1 s2 with
      | some (s3, _) => some s3
      | none => some s2
    | _ => some s1
  | none =>
    match s with
    | '.' :: s2 =>
      match digit1 s2 with
      | some (s3, _) => some s3
      | none => none
    | _ => none

/-- Optional exponent of nom's `recognize_float`: `(e|E) sign? digit1`. -/
def floatExp (s : List Char) : List Char :=
  match s with
  | 'e' :: s1 =>
    match digit1 (nomSignOpt s1) with
    | some (s2, _) => s2
    | none => s
  | 'E' :: s1 =>
    match digit1 (nomSignOpt s1) with
    | some (s2, _) => s2
    | none => s
  | _ => s

/-- Case-insensitive literal match (nom `tag_no_case`), for the `nan` / `inf`
exceptions of `recognize_float_or_exceptions`. -/
def dropTagNoCase : List Char → List Char → Option (List Char)
  | [], s => some s
  | t :: ts, c :: cs => if t = c.toLower then dropTagNoCase ts cs else none
  | _ :: _, [] => none

/-- nom `number::complete::float` as a recognizer
(`recognize_float_or_exceptions` followed by an infallible `f32` conversion;
the numeric value is discarded by the source, so only consumption matters). -/
def nomFloat (s : List Char) : Option (List Char × Unit) :=
  match floatBody (nomSignOpt s) with
  | some rest => some (floatExp rest, ())
  | none =>
    match dropTagNoCase ['n', 'a', 'n'] s with
    | some rest => some (rest, ())
    | none =>
      match dropTagNoCase ['i', 'n', 'f'] s with
      | some rest => some (rest, ())
      | none => none

/-- Numeric value of a digit run (what `str::parse::<usize>` computes). -/
def natOfDigits (s : List Char) : Nat :=
  s.foldl (fun acc c => 10 * acc + (c.toNat - 48)) 0

/-- `str::parse::<usize>` on a string produced by `digit1` (nonempty, all
ASCII digits): succeeds exactly when the value fits in a 64-bit `usize`. -/
def parseUsize (s : List Char) : Option Nat :=
  if s = [] then none
  else if s.all Char.isDigit then
    if natOfDigits s < 2 ^ 64 then some (natOfDigits s) else none
  else none

/-- Debug-checked `usize` subtraction: panics (models as `none`) on
underflow. -/
def checkedSub (a b : Nat) : Option Nat :=
  if b ≤ a then some (a - b) else none

/-- The raw fields of one repeat-spacer data row, as extracted by the
source's 14-element nom `tuple` in `parse_raw_repeat_spacer`:
`data.1` (position digits), `data.11` (diff pattern), `data.13` (spacer). -/
structure RawRowFields where
  pos : List Char
  repeat_diff : List Char
  spacer : List Char
deriving DecidableEq

/-- The nom `tuple((multispace0, digit1, multispace1, digit1, multispace1,
float, multispace1, digit0, multispace0, alpha0, multispace1, not_space,
multispace1, alpha0))` of the source's `parse_raw_repeat_spacer`, keeping
the fields the source reads out. -/
def parse_raw_row_fields (s : List Char) : Option (List Char × RawRowFields) :=
  (multispace0 s).bind fun p1 =>
  (digit1 p1.1).bind fun p2 =>
  (multispace1 p2.1).bind fun p3 =>
  (digit1 p3.1).bind fun p4 =>
  (multispace1 p4.1).bind fun p5 =>
  (nomFloat p5.1).bind fun p6 =>
  (multispace1 p6.1).bind fun p7 =>
  (digit0 p7.1).bind fun p8 =>
  (multispace0 p8.1).bind fun p9 =>
  (alpha0 p9.1).bind fun p10 =>
  (multispace1 p10.1).bind fun p11 =>
  (not_space p11.1).bind fun p12 =>
  (multispace1 p12.1).bind fun p13 =>
  (alpha0 p13.1).bind fun p14 =>
  some (p14.1, ⟨p2.2, p12.2, p14.2⟩)

/-- `RawRepeatSpacer` of the source: uncorrected coordinates plus the diff
pattern and spacer views. -/
structure RawRepeatSpacer where
  start : Nat
  end_ : Nat
  repeat_diff : List Char
  spacer : List Char
deriving DecidableEq

/-- The source's `parse_raw_repeat_spacer`: run the field tuple, then
`start = pos.parse::<usize>().unwrap() - 1` (panics on overflow or on
`pos = 0` under debug overflow checks) and
`end = start + repeat_diff.len() + spacer.len()`. -/
def parse_raw_repeat_spacer (input : List Char) : PRes RawRepeatSpacer :=
  match parse_raw_row_fields input with
  | none => .err
  | some (rem, f) =>
    match parseUsize f.pos with
    | none => .panicked
    | some n =>
      match checkedSub n 1 with
      | none => .panicked
      | some start =>
        .ok rem ⟨start, start + f.repeat_diff.length + f.spacer.length,
                 f.repeat_diff, f.spacer⟩

/-- The source's `parse_array_summary_line`:
`tuple((multispace0, digit1, multispace1, digit1, multispace1, digit1,
multispace1, not_space, line_ending))`, returning `data.7` (the consensus). -/
def parse_array_summary_line (s : List Char) : Option (List Char × List Char) :=
  (multispace0 s).bind fun p1 =>
  (digit1 p1.1).bind fun p2 =>
  (multispace1 p2.1).bind fun p3 =>
  (digit1 p3.1).bind fun p4 =>
  (multispace1 p4.1).bind fun p5 =>
  (digit1 p5.1).bind fun p6 =>
  (multispace1 p6.1).bind fun p7 =>
  (not_space p7.1).bind fun p8 =>
  (line_ending p8.1).bind fun p9 =>
  some (p9.1, p8.2)

/-- `RepeatSpacer` of the source: corrected coordinates, reconstructed
repeat sequence, and the spacer view. -/
structure RepeatSpacer where
  start : Nat
  end_ : Nat
  spacer_start : Nat
  spacer_end : Nat
  repeat_start : Nat
  repeat_end : Nat
  repeat_ : List Char
  spacer : List Char
deriving DecidableEq

/-- `raw.repeat_diff.matches('-').count()`: the number of gap markers in a
diff pattern. -/
def gapCount (diff : List Char) : Nat :=
  (diff.filter (fun c => c == '-')).length

/-- The repeat-reconstruction pipeline of `convert_raw_rs_to_final_rs`:
zip the diff pattern with the consensus, drop pairs whose diff character is
`'-'`, map `'.'` to the consensus character and anything else to itself. -/
def reconstructRepeat (diff consensus : List Char) : List Char :=
  ((diff.zip consensus).filter (fun p => p.1 != '-')).map
    (fun p => if p.1 == '.' then p.2 else p.1)

/-- Loop body of the source's `convert_raw_rs_to_final_rs`, with the running
`total_gap_count` made an explicit parameter.  The `assert_eq!` on the diff
and consensus lengths, and the debug-checked `usize` subtractions
`raw.start - total_gap_count` and `raw.end - total_gap_count - gap_count`,
panic on failure (modelled as `none`). -/
def convertAux (consensus : List Char) (total : Nat) :
    List RawRepeatSpacer → Option (List RepeatSpacer)
  | [] => some []
  | raw :: rest =>
    if raw.repeat_diff.length = consensus.length then
      (checkedSub raw.start total).bind fun s =>
      (checkedSub raw.end_ total).bind fun e1 =>
      (checkedSub e1 (gapCount raw.repeat_diff)).bind fun e =>
      (convertAux consensus (total + gapCount raw.repeat_diff) rest).map fun out =>
      { start := s, end_ := e, repeat_start := s,
        repeat_end := s + (reconstructRepeat raw.repeat_diff consensus).length,
        spacer_start := s + (reconstructRepeat raw.repeat_diff consensus).length,
        spacer_end := e,
        repeat_ := reconstructRepeat raw.repeat_diff consensus,
        spacer := raw.spacer } :: out
    else none

/-- The source's `convert_raw_rs_to_final_rs`: the per-array correction
pass, with `total_gap_count` initialized to `0` before the first row. -/
def convert_raw_rs_to_final_rs (consensus : List Char)
    (raws : List RawRepeatSpacer) : Option (List RepeatSpacer) :=
  convertAux consensus 0 raws

/-- Running `total_gap_count` as seen by row `i`: the sum of the gap counts
of the rows before it in the same array. -/
def totalGapBefore (raws : List RawRepeatSpacer) (i : Nat) : Nat :=
  ((raws.take i).map (fun r => gapCount r.repeat_diff)).sum

/-- `many0`-style iteration of `parse_raw_repeat_spacer` with explicit fuel.
Each successful row consumes at least one character (`digit1` is mandatory),
so fuel `|input| + 1` makes this extensionally nom's `many0` loop. -/
def manyRawAux : Nat → List Char → PRes (List RawRepeatSpacer)
  | 0, s => .ok s []
  | fuel + 1, s =>
    match parse_raw_repeat_spacer s with
    | .err => .ok s []
    | .panicked => .panicked
    | .ok rem r =>
      match manyRawAux fuel rem with
      | .ok rem2 rs => .ok rem2 (r :: rs)
      | .err => .err
      | .panicked => .panicked

/-- nom `many1(parse_raw_repeat_spacer)`: at least one row, then iterate
until the row parser fails. -/
def many1_raw (s : List Char) : PRes (List RawRepeatSpacer) :=
  match parse_raw_repeat_spacer s with
  | .err => .err
  | .panicked => .panicked
  | .ok rem r =>
    match manyRawAux (rem.length + 1) rem with
    | .ok rem2 rs => .ok rem2 (r :: rs)
    | .err => .err
    | .panicked => .panicked

/-- `Array` of the source: one parsed CRISPR array. -/
structure Array where
  accession : List Char
  order : Nat
  start : Nat
  end_ : Nat
  consensus_repeat_sequence : List Char
  repeat_spacers : List RepeatSpacer
deriving DecidableEq

/-- The values the `parse_array` tuple keeps: `data.1` (array-number
digits), `data.4` (accession), `data.9` (raw rows), `data.12` (consensus). -/
structure ArrayBlock where
  order_digits : List Char
  accession : List Char
  raws : List RawRepeatSpacer
  consensus : List Char
deriving DecidableEq

/-- Steps of the `parse_array` tuple before the `many1`:
`tag("Array ")`, `digit1`, `line_ending`, `char('>')`, `not_space`,
`line_ending`, `skip_empty_line`, `skip_one_line`, `skip_one_line`. -/
def parse_array_head (s : List Char) :
    Option (List Char × List Char × List Char) :=
  (dropTag ['A', 'r', 'r', 'a', 'y', ' '] s).bind fun s =>
  (digit1 s).bind fun p1 =>
  (line_ending p1.1).bind fun p2 =>
  (dropTag ['>'] p2.1).bind fun s =>
  (not_space s).bind fun p3 =>
  (line_ending p3.1).bind fun p4 =>
  (skip_empty_line p4.1).bind fun s =>
  (skip_one_line s).bind fun s =>
  (skip_one_line s).map fun s =>
  (s, p1.2, p3.2)

/-- Steps of the `parse_array` tuple after the `many1`:
`skip_one_line`, `skip_one_line`, `parse_array_summary_line`,
`skip_empty_line`, `skip_empty_line`. -/
def parse_array_tail (s : List Char) : Option (List Char × List Char) :=
  (skip_one_line s).bind fun s =>
  (skip_one_line s).bind fun s =>
  (parse_array_summary_line s).bind fun p =>
  (skip_empty_line p.1).bind fun s =>
  (skip_empty_line s).map fun s =>
  (s, p.2)

/-- The full nom `tuple` of the source's `parse_array`. -/
def parse_array_tuple (s : List Char) : PRes ArrayBlock :=
  match parse_array_head s with
  | none => .err
  | some (s1, order_digits, accession) =>
    match many1_raw s1 with
    | .err => .err
    | .panicked => .panicked
    | .ok s2 raws =>
      match parse_array_tail s2 with
      | none => .err
      | some (s3, consensus) => .ok s3 ⟨order_digits, accession, raws, consensus⟩

/-- The source's `parse_array`: run the tuple, then
`order = digits.parse::<usize>().unwrap() - 1`, run the correction pass,
and set `start` / `end` via `repeat_spacers.first().unwrap()` /
`repeat_spacers.last().unwrap()` (a panic if the corrected list were
empty). -/
def parse_array (input : List Char) : PRes Array :=
  match parse_array_tuple input with
  | .err => .err
  | .panicked => .panicked
  | .ok rem t =>
    match parseUsize t.order_digits with
    | none => .panicked
    | some n =>
      match checkedSub n 1 with
      | none => .panicked
      | some order =>
        match convert_raw_rs_to_final_rs t.consensus t.raws with
        | none => .panicked
        | some [] => .panicked
        | some (r0 :: rest) =>
          .ok rem { accession := t.accession, order := order,
                    start := r0.start,
                    end_ := ((r0 :: rest).getLast (List.cons_ne_nil r0 rest)).end_,
                    consensus_repeat_sequence := t.consensus,
                    repeat_spacers := r0 :: rest }

/-- `many0(parse_array)` iteration with explicit fuel (each successful
array consumes at least the 6-character `"Array "` tag). -/
def manyArrayAux : Nat → List Char → PRes (List Array)
  | 0, s => .ok s []
  | fuel + 1, s =>
    match parse_array s with
    | .err => .ok s []
    | .panicked => .panicked
    | .ok rem a =>
      match manyArrayAux fuel rem with
      | .ok rem2 arrs => .ok rem2 (a :: arrs)
      | .err => .err
      | .panicked => .panicked

/-- The source's public `parse`: `tuple((skip_header, many0(parse_array)))`.
The source discards the final remainder and returns the array list; the
remainder is kept in `ok` here for bookkeeping. -/
def parse (input : List Char) : PRes (List Array) :=
  match skip_header input with
  | none => .err
  | some rem => manyArrayAux (rem.length + 1) rem

/-! ## Helper lemmas -/

/-- The head of `l` (if any) falsifies `p`. -/
def headNotSat (p : Char → Bool) : List Char → Prop
  | [] => True
  | c :: _ => p c = false

theorem headNotSat_append (p : Char → Bool) (xs ys : List Char)
    (hne : xs ≠ []) (h : ∀ c ∈ xs, p c = false) : headNotSat p (xs ++ ys) := by
  cases xs with
  | nil => exact absurd rfl hne
  | cons c t => exact h c (by simp)

theorem takeWhile_append_all (p : Char → Bool) (xs ys : List Char)
    (h1 : ∀ c ∈ xs, p c = true) (h2 : headNotSat p ys) :
    (xs ++ ys).takeWhile p = xs := by
  induction xs with
  | nil =>
    cases ys with
    | nil => rfl
    | cons c t =>
      simp only [List.nil_append, List.takeWhile]
      rw [h2]
  | cons c t ih =>
    have hc : p c = true := h1 c (by simp)
    simp only [List.cons_append, List.takeWhile]
    rw [hc]
    simp only [List.cons.injEq, true_and]
    exact ih (fun d hd => h1 d (by simp [hd]))

theorem dropWhile_append_all (p : Char → Bool) (xs ys : List Char)
    (h1 : ∀ c ∈ xs, p c = true) (h2 : headNotSat p ys) :
    (xs ++ ys).dropWhile p = ys := by
  induction xs with
  | nil =>
    cases ys with
    | nil => rfl
    | cons c t =>
      simp only [List.nil_append, List.dropWhile]
      rw [h2]
  | cons c t ih =>
    have hc : p c = true := h1 c (by simp)
    simp only [List.cons_append, List.dropWhile]
    rw [hc]
    exact ih (fun d hd => h1 d (by simp [hd]))

theorem multispace0_eats (w rest : List Char)
    (h1 : ∀ c ∈ w, isMultispace c = true) (h2 : headNotSat isMultispace rest) :
    multispace0 (w ++ rest) = some (rest, w) := by
  unfold multispace0
  rw [takeWhile_append_all _ _ _ h1 h2, dropWhile_append_all _ _ _ h1 h2]

theorem multispace1_eats (w rest : List Char) (hne : w ≠ [])
    (h1 : ∀ c ∈ w, isMultispace c = true) (h2 : headNotSat isMultispace rest) :
    multispace1 (w ++ rest) = some (rest, w) := by
  unfold multispace1
  rw [takeWhile_append_all _ _ _ h1 h2, dropWhile_append_all _ _ _ h1 h2,
    if_neg hne]

theorem digit1_eats (w rest : List Char) (hne : w ≠ [])
    (h1 : ∀ c ∈ w, c.isDigit = true) (h2 : headNotSat Char.isDigit rest) :
    digit1 (w ++ rest) = some (rest, w) := by
  unfold digit1
  rw [takeWhile_append_all _ _ _ h1 h2, dropWhile_append_all _ _ _ h1 h2,
    if_neg hne]

theorem digit0_eats (w rest : List Char)
    (h1 : ∀ c ∈ w, c.isDigit = true) (h2 : headNotSat Char.isDigit rest) :
    digit0 (w ++ rest) = some (rest, w) := by
  unfold digit0
  rw [takeWhile_append_all _ _ _ h1 h2, dropWhile_append_all _ _ _ h1 h2]

theorem alpha0_eats (w rest : List Char)
    (h1 : ∀ c ∈ w, c.isAlpha = true) (h2 : headNotSat Char.isAlpha rest) :
    alpha0 (w ++ rest) = some (rest, w) := by
  unfold alpha0
  rw [takeWhile_append_all _ _ _ h1 h2, dropWhile_append_all _ _ _ h1 h2]

theorem not_space_eats (w rest : List Char)
    (h1 : ∀ c ∈ w, rustIsWhitespace c = false)
    (h2 : headNotSat (fun c => !rustIsWhitespace c) rest) :
    not_space (w ++ rest) = some (rest, w) := by
  unfold not_space
  rw [takeWhile_append_all _ _ _ (fun c hc => by simp [h1 c hc]) h2,
    dropWhile_append_all _ _ _ (fun c hc => by simp [h1 c hc]) h2]

theorem line_ending_eats (le rest : List Char)
    (h : le = ['\n'] ∨ le = ['\r', '\n']) :
    line_ending (le ++ rest) = some (rest, le) := by
  rcases h with h | h <;> subst h <;> rfl

theorem checkedSub_some {a b x : Nat} (h : checkedSub a b = some x) :
    b ≤ a ∧ x = a - b := by
  unfold checkedSub at h
  by_cases hb : b ≤ a
  · rw [if_pos hb] at h
    exact ⟨hb, (Option.some.injEq _ _ ▸ h).symm⟩
  · rw [if_neg hb] at h
    exact absurd h (by simp)

theorem gapCount_le (diff : List Char) : gapCount diff ≤ diff.length :=
  List.length_filter_le _ _

theorem reconstructRepeat_length (diff consensus : List Char)
    (h : diff.length = consensus.length) :
    (reconstructRepeat diff consensus).length = diff.length - gapCount diff := by
  induction diff generalizing consensus with
  | nil => simp [reconstructRepeat, gapCount]
  | cons d ds ih =>
    cases consensus with
    | nil => exact absurd h (by simp)
    | cons c cs =>
      have hlen : ds.length = cs.length := by
        simpa using h
      have hle := gapCount_le ds
      by_cases hd : d = '-'
      · subst hd
        have : reconstructRepeat ('-' :: ds) (c :: cs) = reconstructRepeat ds cs := by
          simp [reconstructRepeat]
        rw [this, ih cs hlen]
        have : gapCount ('-' :: ds) = gapCount ds + 1 := by
          simp [gapCount]
        rw [this]
        simp only [List.length_cons]
        omega
      · have hne : (d != '-') = true := by
          simp [hd]
        have : reconstructRepeat (d :: ds) (c :: cs) =
            (if d == '.' then c else d) :: reconstructRepeat ds cs := by
          simp [reconstructRepeat, hne]
        rw [this]
        have hg : gapCount (d :: ds) = gapCount ds := by
          simp [gapCount, hd]
        rw [hg]
        simp only [List.length_cons, ih cs hlen]
        omega

theorem convertAux_length (consensus : List Char) (total : Nat)
    (raws : List RawRepeatSpacer) (out : List RepeatSpacer)
    (h : convertAux consensus total raws = some out) :
    out.length = raws.length := by
  induction raws generalizing total out with
  | nil =>
    unfold convertAux at h
    simp only [Option.some.injEq] at h
    subst h
    rfl
  | cons raw rest ih =>
    unfold convertAux at h
    by_cases hlen : raw.repeat_diff.length = consensus.length
    · rw [if_pos hlen] at h
      simp only [Option.bind_eq_some, Option.map_eq_some'] at h
      obtain ⟨s, _, e1, _, e, _, out2, h4, hout⟩ := h
      subst hout
      simp [ih _ _ h4]
    · rw [if_neg hlen] at h
      exact absurd h (by simp)

theorem totalGapBefore_zero (raws : List RawRepeatSpacer) :
    totalGapBefore raws 0 = 0 := by
  simp [totalGapBefore]

theorem totalGapBefore_succ (raw : RawRepeatSpacer)
    (rest : List RawRepeatSpacer) (n : Nat) :
    totalGapBefore (raw :: rest) (n + 1) =
      gapCount raw.repeat_diff + totalGapBefore rest n := by
  simp [totalGapBefore, List.take_succ_cons]

theorem convertAux_get (consensus : List Char) (total : Nat)
    (raws : List RawRepeatSpacer) (out : List RepeatSpacer)
    (h : convertAux consensus total raws = some out) :
    ∀ i r o, raws.get? i = some r → out.get? i = some o →
      o.start = r.start - (total + totalGapBefore raws i) ∧
      o.end_ = r.end_ - (total + totalGapBefore raws i) - gapCount r.repeat_diff ∧
      o.repeat_ = reconstructRepeat r.repeat_diff consensus ∧
      r.repeat_diff.length = consensus.length := by
  induction raws generalizing total out with
  | nil =>
    intro i r o hr ho
    simp at hr
  | cons raw rest ih =>
    intro i r o hr ho
    unfold convertAux at h
    by_cases hlen : raw.repeat_diff.length = consensus.length
    · rw [if_pos hlen] at h
      simp only [Option.bind_eq_some, Option.map_eq_some'] at h
      obtain ⟨s, hs, e1, he1, e, he, out2, h4, hout⟩ := h
      subst hout
      obtain ⟨hs_le, hs_eq⟩ := checkedSub_some hs
      obtain ⟨he1_le, he1_eq⟩ := checkedSub_some he1
      obtain ⟨he_le, he_eq⟩ := checkedSub_some he
      cases i with
      | zero =>
        simp only [List.get?_cons_zero, Option.some.injEq] at hr ho
        subst hr
        subst ho
        rw [totalGapBefore_zero, Nat.add_zero]
        exact ⟨by rw [hs_eq], by rw [he_eq, he1_eq], rfl, hlen⟩
      | succ n =>
        simp only [List.get?_cons_succ] at hr ho
        have hrec := ih _ _ h4 n r o hr ho
        rw [totalGapBefore_succ, ← Nat.add_assoc]
        exact hrec
    · rw [if_neg hlen] at h
      exact absurd h (by simp)

theorem convertAux_mismatch_none (consensus : List Char) (total : Nat)
    (raws : List RawRepeatSpacer)
    (h : ∃ r ∈ raws, r.repeat_diff.length ≠ consensus.length) :
    convertAux consensus total raws = none := by
  induction raws generalizing total with
  | nil =>
    obtain ⟨r, hr, _⟩ := h
    simp at hr
  | cons raw rest ih =>
    obtain ⟨r, hr, hne⟩ := h
    unfold convertAux
    by_cases hlen : raw.repeat_diff.length = consensus.length
    · rw [if_pos hlen]
      rcases List.mem_cons.1 hr with hhead | htail
      · subst hhead
        exact absurd hlen hne
      · rw [ih _ ⟨r, htail, hne⟩]
        cases checkedSub raw.start total with
        | none => rfl
        | some s =>
          cases checkedSub raw.end_ total with
          | none => rfl
          | some e1 =>
            simp only [Option.some_bind]
            cases checkedSub e1 (gapCount raw.repeat_diff) with
            | none => rfl
            | some e => rfl
    · rw [if_neg hlen]

/-! ## Claim theorems -/

/-- Small concrete inputs used by witnesses: a 2-character consensus and two
raw rows, the first with one gap in its diff pattern. -/
def sampleConsensus : List Char := ['A', 'C']

/-- See `sampleConsensus`. -/
def sampleRaws : List RawRepeatSpacer :=
  [⟨10, 14, ['.', '-'], ['G', 'G']⟩, ⟨14, 18, ['.', '.'], []⟩]

/-- C1: processing raw rows in document order with a running
`total_gap_count` that starts at `0` for the array (`totalGapBefore raws i`
is its value before row `i`, the sum of the previous rows' gap counts),
every row of a successful correction pass gets
`start = raw.start − total_gap_count` and
`end = raw.end − total_gap_count − gap_count`. -/
theorem convert_coordinates (consensus : List Char)
    (raws : List RawRepeatSpacer) (out : List RepeatSpacer)
    (h : convert_raw_rs_to_final_rs consensus raws = some out) :
    out.length = raws.length ∧
    ∀ i r o, raws.get? i = some r → out.get? i = some o →
      o.start = r.start - totalGapBefore raws i ∧
      o.end_ = r.end_ - totalGapBefore raws i - gapCount r.repeat_diff := by
  refine ⟨convertAux_length _ _ _ _ h, ?_⟩
  intro i r o hr ho
  have hg := convertAux_get _ _ _ _ h i r o hr ho
  rw [Nat.zero_add] at hg
  exact ⟨hg.1, hg.2.1⟩

/-- Witness for `convert_coordinates` at `sampleRaws`, row 1 (after one
gap in row 0 the running offset is 1). -/
theorem convert_coordinates_witness :
    convert_raw_rs_to_final_rs sampleConsensus sampleRaws =
      some [⟨10, 13, 11, 13, 10, 11, ['A'], ['G', 'G']⟩,
            ⟨13, 17, 15, 17, 13, 15, ['A', 'C'], []⟩] ∧
    ((13 : Nat) = 14 - totalGapBefore sampleRaws 1 ∧
     (17 : Nat) = 18 - totalGapBefore sampleRaws 1 - gapCount ['.', '.']) :=
  ⟨by decide,
   (convert_coordinates sampleConsensus sampleRaws
     [⟨10, 13, 11, 13, 10, 11, ['A'], ['G', 'G']⟩,
      ⟨13, 17, 15, 17, 13, 15, ['A', 'C'], []⟩] (by decide)).2 1
     ⟨14, 18, ['.', '.'], []⟩ ⟨13, 17, 15, 17, 13, 15, ['A', 'C'], []⟩
     (by decide) (by decide)⟩

/-- C2: in a successful correction pass every row's diff pattern has the
consensus length, its repeat is reconstructed by the zip/filter/map pipeline
(`reconstructRepeat`, translated from the source), and consequently
`len(repeat) = len(repeat_diff) − gap_count(repeat_diff)`. -/
theorem convert_repeat_reconstruction (consensus : List Char)
    (raws : List RawRepeatSpacer) (out : List RepeatSpacer)
    (h : convert_raw_rs_to_final_rs consensus raws = some out) :
    ∀ i r o, raws.get? i = some r → out.get? i = some o →
      r.repeat_diff.length = consensus.length ∧
      o.repeat_ = reconstructRepeat r.repeat_diff consensus ∧
      o.repeat_.length = r.repeat_diff.length - gapCount r.repeat_diff := by
  intro i r o hr ho
  have hg := convertAux_get _ _ _ _ h i r o hr ho
  refine ⟨hg.2.2.2, hg.2.2.1, ?_⟩
  rw [hg.2.2.1]
  exact reconstructRepeat_length _ _ hg.2.2.2

/-- Witness for `convert_repeat_reconstruction` at `sampleRaws`, row 0
(one gap: the repeat is one character shorter than the diff pattern). -/
theorem convert_repeat_reconstruction_witness :
    convert_raw_rs_to_final_rs sampleConsensus sampleRaws =
      some [⟨10, 13, 11, 13, 10, 11, ['A'], ['G', 'G']⟩,
            ⟨13, 17, 15, 17, 13, 15, ['A', 'C'], []⟩] ∧
    (List.length ['.', '-'] = List.length ['A', 'C'] ∧
     ['A'] = reconstructRepeat ['.', '-'] ['A', 'C'] ∧
     List.length ['A'] = List.length ['.', '-'] - gapCount ['.', '-']) :=
  ⟨by decide,
   convert_repeat_reconstruction sampleConsensus sampleRaws
     [⟨10, 13, 11, 13, 10, 11, ['A'], ['G', 'G']⟩,
      ⟨13, 17, 15, 17, 13, 15, ['A', 'C'], []⟩] (by decide) 0
     ⟨10, 14, ['.', '-'], ['G', 'G']⟩ ⟨10, 13, 11, 13, 10, 11, ['A'], ['G', 'G']⟩
     (by decide) (by decide)⟩

/-- C3 (amended): when some row's diff pattern length differs from the
consensus length, the correction pass does not return a value at all: the
source's `assert_eq!(raw.repeat_diff.len(), consensus_repeat.len())` panics
(modelled by `none`), aborting the process instead of handing the caller a
recoverable error. -/
theorem convert_length_mismatch_panics (consensus : List Char)
    (raws : List RawRepeatSpacer)
    (h : ∃ r ∈ raws, r.repeat_diff.length ≠ consensus.length) :
    convert_raw_rs_to_final_rs consensus raws = none :=
  convertAux_mismatch_none consensus 0 raws h

/-- Witness for `convert_length_mismatch_panics`: a one-character diff
pattern against a two-character consensus. -/
theorem convert_length_mismatch_panics_witness :
    convert_raw_rs_to_final_rs ['C', 'C'] [⟨0, 0, ['.'], []⟩] = none :=
  convert_length_mismatch_panics ['C', 'C'] [⟨0, 0, ['.'], []⟩]
    ⟨⟨0, 0, ['.'], []⟩, by decide, by decide⟩

/-- C3 (counterexample to the claim as stated): a full document whose single
array has a row with a 1-character diff pattern but a 2-character consensus.
The public `parse` does not return a recoverable error to the caller (the
code has no `FormatError::LengthMismatch` at all): it aborts the process via
the `assert_eq!` panic, modelled by `PRes.panicked` — which is distinct from
the returned-error outcome `PRes.err`. -/
theorem parse_length_mismatch_aborts_cex :
    parse (String.toList
      "A\nB\n\nC\n\n\n\nD\n\n\n\nArray 1\n>ACC\n\nH1\nH2\n 1 1 1.0 1 A . A\n===\n 1 1 1 CC\n\n\n") =
      PRes.panicked ∧ PRes.panicked ≠ (PRes.err : PRes (List Array)) := by
  exact ⟨by decide, by decide⟩

/-- C8: reconstructing a repeat from an all-`'.'` diff pattern of the
consensus's length yields exactly the consensus. -/
theorem reconstruct_all_dots_eq_consensus (consensus : List Char) :
    reconstructRepeat (List.replicate consensus.length '.') consensus =
      consensus := by
  induction consensus with
  | nil => rfl
  | cons c cs ih =>
    have hstep : reconstructRepeat ('.' :: List.replicate cs.length '.') (c :: cs) =
        c :: reconstructRepeat (List.replicate cs.length '.') cs := by
      simp [reconstructRepeat]
    simp only [List.length_cons, List.replicate_succ, hstep, ih]

theorem parseUsize_some {s : List Char} {n : Nat} (h : parseUsize s = some n) :
    n = natOfDigits s := by
  unfold parseUsize at h
  split_ifs at h
  all_goals simp_all

/-- C4: every successfully extracted raw row has
`start = pos − 1` (the 1-based position field converted to 0-based; success
means the `usize` arithmetic did not panic, so `pos ≥ 1` and the subtraction
is exact) and the deliberately tool-compatible
`end = start + len(repeat_diff) + len(spacer)`. -/
theorem raw_row_coordinates (input rem : List Char) (r : RawRepeatSpacer)
    (h : parse_raw_repeat_spacer input = .ok rem r) :
    ∃ f, parse_raw_row_fields input = some (rem, f) ∧
      r.repeat_diff = f.repeat_diff ∧ r.spacer = f.spacer ∧
      1 ≤ natOfDigits f.pos ∧ r.start = natOfDigits f.pos - 1 ∧
      r.end_ = r.start + f.repeat_diff.length + f.spacer.length := by
  unfold parse_raw_repeat_spacer at h
  split at h
  · exact absurd h (by simp)
  · rename_i rem' f hf
    split at h
    · exact absurd h (by simp)
    · rename_i n hn
      split at h
      · exact absurd h (by simp)
      · rename_i st hs
        injection h with h1 h2
        subst h1
        subst h2
        obtain ⟨hle, hst⟩ := checkedSub_some hs
        have hnat := parseUsize_some hn
        subst hnat
        exact ⟨f, hf, rfl, rfl, hle, by rw [hst], rfl⟩

/-- Witness for `raw_row_coordinates`: the raw-row input of the
repository's own `test_parse_raw_repeat_spacer`. -/
theorem raw_row_coordinates_witness :
    ∃ f, parse_raw_row_fields (String.toList
        "       462      36   100.0      29  CTTTCTGAAG    ....................................    CGTGCTCGCTTTGAATTTGTAGAACCCGA") =
        some ([], f) ∧
      (String.toList "....................................") = f.repeat_diff ∧
      (String.toList "CGTGCTCGCTTTGAATTTGTAGAACCCGA") = f.spacer ∧
      1 ≤ natOfDigits f.pos ∧ (461 : Nat) = natOfDigits f.pos - 1 ∧
      (526 : Nat) = 461 + f.repeat_diff.length + f.spacer.length :=
  raw_row_coordinates _ []
    ⟨461, 526, String.toList "....................................",
     String.toList "CGTGCTCGCTTTGAATTTGTAGAACCCGA"⟩ (by decide)

/-- C6 (amended): when the raw-row grammar matched but the position digits
do not convert to a `usize` (`str::parse::<usize>` overflow), the source's
`.unwrap()` panics, aborting the process — no `UnexpectedToken` (or any
other) error is returned to the caller. -/
theorem raw_row_unparseable_number_panics (input rem : List Char)
    (f : RawRowFields)
    (h1 : parse_raw_row_fields input = some (rem, f))
    (h2 : parseUsize f.pos = none) :
    parse_raw_repeat_spacer input = .panicked := by
  unfold parse_raw_repeat_spacer
  rw [h1]
  simp only [h2]

/-- Witness for `raw_row_unparseable_number_panics`: a well-shaped row whose
position field is `2^64` (21 digits), one past `usize::MAX`. -/
theorem raw_row_unparseable_number_panics_witness :
    parse_raw_repeat_spacer (String.toList
      " 18446744073709551616 2 2.0 3 G . T") = .panicked :=
  raw_row_unparseable_number_panics _ []
    ⟨String.toList "18446744073709551616", ['.'], ['T']⟩ (by decide) (by decide)

/-- C6 (counterexample to the claim as stated): a row whose position field
is twenty nines — the digit grammar matches, `str::parse::<usize>` fails on
overflow, and the parser panics (`PRes.panicked`, a process abort) instead
of reporting an `UnexpectedToken` error (`PRes.err`) to the caller. -/
theorem raw_row_numeric_overflow_aborts_cex :
    parse_raw_repeat_spacer (String.toList
      " 99999999999999999999 1 1.0 1 A . A") = .panicked ∧
    (PRes.panicked : PRes RawRepeatSpacer) ≠ .err := by
  exact ⟨by decide, by decide⟩

/-- A minimal well-formed array block, used by witnesses:
one data row (`pos 1`, one-character diff `.` and spacer `A`) against the
one-character consensus `C`. -/
def miniBlock : List Char :=
  String.toList "Array 1\n>ACC\n\nH1\nH2\n 1 1 1.0 1 A . A\n===\n 1 1 1 C\n\n\n"

/-- The `Array` value produced by parsing `miniBlock`. -/
def miniArray : Array :=
  ⟨String.toList "ACC", 0, 0, 2, ['C'], [⟨0, 2, 1, 2, 0, 1, ['C'], ['A']⟩]⟩

/-- The `ArrayBlock` tuple extracted from `miniBlock`. -/
def miniBlockTuple : ArrayBlock :=
  ⟨['1'], String.toList "ACC", [⟨0, 2, ['.'], ['A']⟩], ['C']⟩

/-- C9: every successfully parsed array takes its `start` from its first
corrected repeat-spacer and its `end` from its last corrected
repeat-spacer. -/
theorem array_bounds_from_first_last (input rem : List Char) (arr : Array)
    (h : parse_array input = .ok rem arr) :
    ∃ r0 rl, arr.repeat_spacers.head? = some r0 ∧
      arr.repeat_spacers.getLast? = some rl ∧
      arr.start = r0.start ∧ arr.end_ = rl.end_ := by
  unfold parse_array at h
  split at h
  · exact absurd h (by simp)
  · exact absurd h (by simp)
  · rename_i rem' t htuple
    split at h
    · exact absurd h (by simp)
    · rename_i n hn
      split at h
      · exact absurd h (by simp)
      · rename_i order ho
        split at h
        · exact absurd h (by simp)
        · exact absurd h (by simp)
        · rename_i r0 rest hconv
          injection h with h1 h2
          subst h1
          subst h2
          exact ⟨r0, (r0 :: rest).getLast (List.cons_ne_nil r0 rest), rfl,
            List.getLast?_eq_getLast _ _, rfl, rfl⟩

/-- Witness for `array_bounds_from_first_last` at `miniBlock`. -/
theorem array_bounds_from_first_last_witness :
    ∃ r0 rl, miniArray.repeat_spacers.head? = some r0 ∧
      miniArray.repeat_spacers.getLast? = some rl ∧
      miniArray.start = r0.start ∧ miniArray.end_ = rl.end_ :=
  array_bounds_from_first_last miniBlock [] miniArray (by decide)

theorem many1_raw_ne_nil {s rem : List Char} {raws : List RawRepeatSpacer}
    (h : many1_raw s = .ok rem raws) : raws ≠ [] := by
  unfold many1_raw at h
  split at h
  · exact absurd h (by simp)
  · exact absurd h (by simp)
  · rename_i rem1 r hr
    split at h
    · rename_i rem2 rs hm
      injection h with h1 h2
      subst h2
      simp
    · exact absurd h (by simp)
    · exact absurd h (by simp)

theorem parse_array_tuple_raws_ne_nil (input rem : List Char) (t : ArrayBlock)
    (h : parse_array_tuple input = .ok rem t) : t.raws ≠ [] := by
  unfold parse_array_tuple at h
  split at h
  · exact absurd h (by simp)
  · rename_i s1 od acc hhead
    split at h
    · exact absurd h (by simp)
    · exact absurd h (by simp)
    · rename_i s2 raws hmany
      split at h
      · exact absurd h (by simp)
      · rename_i s3 consensus htail
        injection h with h1 h2
        subst h2
        exact many1_raw_ne_nil hmany

/-- C10: the row list of an array block comes from `many1`, so it is
nonempty, and the correction pass is length-preserving — hence the corrected
list fed to `repeat_spacers.first().unwrap()` / `.last().unwrap()` is never
empty and those accesses cannot fail. -/
theorem parsed_array_repeat_spacers_nonempty (input rem : List Char)
    (t : ArrayBlock) (rss : List RepeatSpacer)
    (h1 : parse_array_tuple input = .ok rem t)
    (h2 : convert_raw_rs_to_final_rs t.consensus t.raws = some rss) :
    rss ≠ [] := by
  have hlen := convertAux_length _ _ _ _ h2
  have hne := parse_array_tuple_raws_ne_nil _ _ _ h1
  intro hnil
  subst hnil
  exact hne (List.length_eq_zero.1 hlen.symm)

/-- Witness for `parsed_array_repeat_spacers_nonempty` at `miniBlock`. -/
theorem parsed_array_repeat_spacers_nonempty_witness :
    parse_array_tuple miniBlock = .ok [] miniBlockTuple ∧
    convert_raw_rs_to_final_rs miniBlockTuple.consensus miniBlockTuple.raws =
      some [⟨0, 2, 1, 2, 0, 1, ['C'], ['A']⟩] ∧
    ([⟨0, 2, 1, 2, 0, 1, ['C'], ['A']⟩] : List RepeatSpacer) ≠ [] :=
  ⟨by decide, by decide,
   parsed_array_repeat_spacers_nonempty miniBlock [] miniBlockTuple
     [⟨0, 2, 1, 2, 0, 1, ['C'], ['A']⟩] (by decide) (by decide)⟩

/-- C5 (amended): the summary-row extractor accepts every line of the shape
`<count:uint> <repeat_len:uint> <spacer_len:uint> <consensus:non-ws-run>`
terminated by a line ending — i.e. the form WITHOUT the optional
`pct_id_field` — and returns exactly the consensus field, discarding the
rest.  (The four-integer form with `pct_id_field` present is rejected; see
the counterexample.) -/
theorem summary_line_accepts_three_field_form
    (w0 d1 w1 d2 w2 d3 w3 cons le rest : List Char)
    (hw0 : ∀ c ∈ w0, isMultispace c = true)
    (hd1ne : d1 ≠ []) (hd1 : ∀ c ∈ d1, c.isDigit = true ∧ isMultispace c = false)
    (hw1ne : w1 ≠ []) (hw1 : ∀ c ∈ w1, isMultispace c = true ∧ c.isDigit = false)
    (hd2ne : d2 ≠ []) (hd2 : ∀ c ∈ d2, c.isDigit = true ∧ isMultispace c = false)
    (hw2ne : w2 ≠ []) (hw2 : ∀ c ∈ w2, isMultispace c = true ∧ c.isDigit = false)
    (hd3ne : d3 ≠ []) (hd3 : ∀ c ∈ d3, c.isDigit = true ∧ isMultispace c = false)
    (hw3ne : w3 ≠ []) (hw3 : ∀ c ∈ w3, isMultispace c = true ∧ c.isDigit = false)
    (hconsne : cons ≠ [])
    (hcons : ∀ c ∈ cons, rustIsWhitespace c = false ∧ isMultispace c = false)
    (hle : le = ['\n'] ∨ le = ['\r', '\n']) :
    parse_array_summary_line
      (w0 ++ (d1 ++ (w1 ++ (d2 ++ (w2 ++ (d3 ++ (w3 ++ (cons ++ (le ++ rest))))))))) =
      some (rest, cons) := by
  have hlene : le ≠ [] := by
    rcases hle with h | h <;> subst h <;> simp
  have hlews : ∀ c ∈ le, (!rustIsWhitespace c) = false := by
    rcases hle with h | h <;> subst h <;> decide
  have h0 := multispace0_eats w0
    (d1 ++ (w1 ++ (d2 ++ (w2 ++ (d3 ++ (w3 ++ (cons ++ (le ++ rest)))))))) hw0
    (headNotSat_append _ d1 _ hd1ne (fun c hc => (hd1 c hc).2))
  have h1 := digit1_eats d1 (w1 ++ (d2 ++ (w2 ++ (d3 ++ (w3 ++ (cons ++ (le ++ rest)))))))
    hd1ne (fun c hc => (hd1 c hc).1)
    (headNotSat_append _ w1 _ hw1ne (fun c hc => (hw1 c hc).2))
  have h2 := multispace1_eats w1 (d2 ++ (w2 ++ (d3 ++ (w3 ++ (cons ++ (le ++ rest))))))
    hw1ne (fun c hc => (hw1 c hc).1)
    (headNotSat_append _ d2 _ hd2ne (fun c hc => (hd2 c hc).2))
  have h3 := digit1_eats d2 (w2 ++ (d3 ++ (w3 ++ (cons ++ (le ++ rest)))))
    hd2ne (fun c hc => (hd2 c hc).1)
    (headNotSat_append _ w2 _ hw2ne (fun c hc => (hw2 c hc).2))
  have h4 := multispace1_eats w2 (d3 ++ (w3 ++ (cons ++ (le ++ rest))))
    hw2ne (fun c hc => (hw2 c hc).1)
    (headNotSat_append _ d3 _ hd3ne (fun c hc => (hd3 c hc).2))
  have h5 := digit1_eats d3 (w3 ++ (cons ++ (le ++ rest)))
    hd3ne (fun c hc => (hd3 c hc).1)
    (headNotSat_append _ w3 _ hw3ne (fun c hc => (hw3 c hc).2))
  have h6 := multispace1_eats w3 (cons ++ (le ++ rest))
    hw3ne (fun c hc => (hw3 c hc).1)
    (headNotSat_append _ cons _ hconsne (fun c hc => (hcons c hc).2))
  have h7 := not_space_eats cons (le ++ rest)
    (fun c hc => (hcons c hc).1)
    (headNotSat_append _ le _ hlene hlews)
  have h8 := line_ending_eats le rest hle
  simp only [parse_array_summary_line, h0, Option.some_bind, h1, h2, h3, h4,
    h5, h6, h7, h8]

/-- Witness for `summary_line_accepts_three_field_form`: the summary row of
the repository's own `test_parse_array_summary_line` (blank pct column,
three integers, then the consensus). -/
theorem summary_line_accepts_three_field_form_witness :
    parse_array_summary_line
      (String.toList "        " ++ (String.toList "22" ++ (String.toList "      " ++
       (String.toList "36" ++ (String.toList "              " ++ (String.toList "29" ++
        (String.toList "                " ++
         (String.toList "GTTGTGGTTTGATGTAGGAATCAAAAGATATACAAC" ++ (['\n'] ++ []))))))))) =
      some ([], String.toList "GTTGTGGTTTGATGTAGGAATCAAAAGATATACAAC") :=
  summary_line_accepts_three_field_form
    (String.toList "        ") (String.toList "22") (String.toList "      ")
    (String.toList "36") (String.toList "              ") (String.toList "29")
    (String.toList "                ")
    (String.toList "GTTGTGGTTTGATGTAGGAATCAAAAGATATACAAC") ['\n'] []
    (by decide) (by decide) (by decide) (by decide) (by decide) (by decide)
    (by decide) (by decide) (by decide) (by decide) (by decide) (by decide)
    (by decide) (by decide) (by decide) (Or.inl rfl)

/-- C5 (counterexample to the claim as stated): a summary line in the
optional-field form of the claim, `<count> <repeat_len> <pct_id_field>
<spacer_len> <consensus>` (four integers, pct field present).  The extractor
rejects it — after the three mandatory `digit1` fields the fourth integer is
consumed by `not_space` and the following space fails `line_ending`. -/
theorem summary_line_with_pct_field_rejected_cex :
    parse_array_summary_line (String.toList "1 2 3 4 C\n") = none := by
  decide

theorem headNotSat_append_of (p : Char → Bool) (xs ys : List Char)
    (hne : xs ≠ []) (h : headNotSat p xs) : headNotSat p (xs ++ ys) := by
  cases xs with
  | nil => exact absurd rfl hne
  | cons c t => exact h

theorem multispace0_empty (s : List Char) (h : headNotSat isMultispace s) :
    multispace0 s = some (s, []) := by
  have := multispace0_eats [] s (by simp) h
  simpa using this

theorem digit0_empty (s : List Char) (h : headNotSat Char.isDigit s) :
    digit0 s = some (s, []) := by
  have := digit0_eats [] s (by simp) h
  simpa using this

theorem alpha0_empty (s : List Char) (h : headNotSat Char.isAlpha s) :
    alpha0 s = some (s, []) := by
  have := alpha0_eats [] s (by simp) h
  simpa using this

/-- C7: a final row whose spacer-length and spacer fields are both absent
(position, repeat length, percent identity, left flank and diff pattern
followed directly by the line break and the separator line) is accepted by
the raw-row extractor, which returns an empty spacer view: `digit0`,
`multispace0` and the trailing `alpha0` all succeed on empty matches.
`natOfDigits pos` must be a positive `usize` or the extractor would panic
instead of succeeding. -/
theorem raw_row_empty_spacer_ok
    (w0 pos w1 rlen w2 pct w3 flank w4 diff w5 rest : List Char)
    (hw0 : ∀ c ∈ w0, isMultispace c = true)
    (hposne : pos ≠ [])
    (hpos : ∀ c ∈ pos, c.isDigit = true ∧ isMultispace c = false)
    (hw1ne : w1 ≠ []) (hw1 : ∀ c ∈ w1, isMultispace c = true ∧ c.isDigit = false)
    (hrlenne : rlen ≠ [])
    (hrlen : ∀ c ∈ rlen, c.isDigit = true ∧ isMultispace c = false)
    (hw2ne : w2 ≠ []) (hw2 : ∀ c ∈ w2, isMultispace c = true ∧ c.isDigit = false)
    (hpctne : pct ≠ []) (hpcthead : headNotSat isMultispace pct)
    (hpct : nomFloat (pct ++ (w3 ++ (flank ++ (w4 ++ (diff ++ (w5 ++ rest)))))) =
      some (w3 ++ (flank ++ (w4 ++ (diff ++ (w5 ++ rest)))), ()))
    (hw3ne : w3 ≠ []) (hw3 : ∀ c ∈ w3, isMultispace c = true)
    (hflankne : flank ≠ [])
    (hflank : ∀ c ∈ flank,
      c.isAlpha = true ∧ c.isDigit = false ∧ isMultispace c = false)
    (hw4ne : w4 ≠ []) (hw4 : ∀ c ∈ w4, isMultispace c = true ∧ c.isAlpha = false)
    (hdiffne : diff ≠ [])
    (hdiff : ∀ c ∈ diff, rustIsWhitespace c = false ∧ isMultispace c = false)
    (hw5ne : w5 ≠ [])
    (hw5 : ∀ c ∈ w5, isMultispace c = true ∧ rustIsWhitespace c = true)
    (hrest_ms : headNotSat isMultispace rest)
    (hrest_alpha : headNotSat Char.isAlpha rest)
    (hge : 1 ≤ natOfDigits pos) (hlt : natOfDigits pos < 2 ^ 64) :
    parse_raw_repeat_spacer
      (w0 ++ (pos ++ (w1 ++ (rlen ++ (w2 ++ (pct ++ (w3 ++ (flank ++
        (w4 ++ (diff ++ (w5 ++ rest))))))))))) =
      .ok rest ⟨natOfDigits pos - 1, natOfDigits pos - 1 + diff.length,
                diff, []⟩ := by
  have h0 := multispace0_eats w0
    (pos ++ (w1 ++ (rlen ++ (w2 ++ (pct ++ (w3 ++ (flank ++ (w4 ++ (diff ++ (w5 ++ rest)))))))))) hw0
    (headNotSat_append _ pos _ hposne (fun c hc => (hpos c hc).2))
  have h1 := digit1_eats pos
    (w1 ++ (rlen ++ (w2 ++ (pct ++ (w3 ++ (flank ++ (w4 ++ (diff ++ (w5 ++ rest)))))))))
    hposne (fun c hc => (hpos c hc).1)
    (headNotSat_append _ w1 _ hw1ne (fun c hc => (hw1 c hc).2))
  have h2 := multispace1_eats w1
    (rlen ++ (w2 ++ (pct ++ (w3 ++ (flank ++ (w4 ++ (diff ++ (w5 ++ rest))))))))
    hw1ne (fun c hc => (hw1 c hc).1)
    (headNotSat_append _ rlen _ hrlenne (fun c hc => (hrlen c hc).2))
  have h3 := digit1_eats rlen
    (w2 ++ (pct ++ (w3 ++ (flank ++ (w4 ++ (diff ++ (w5 ++ rest)))))))
    hrlenne (fun c hc => (hrlen c hc).1)
    (headNotSat_append _ w2 _ hw2ne (fun c hc => (hw2 c hc).2))
  have h4 := multispace1_eats w2
    (pct ++ (w3 ++ (flank ++ (w4 ++ (diff ++ (w5 ++ rest))))))
    hw2ne (fun c hc => (hw2 c hc).1)
    (headNotSat_append_of _ pct _ hpctne hpcthead)
  have h5 := multispace1_eats w3
    (flank ++ (w4 ++ (diff ++ (w5 ++ rest))))
    hw3ne hw3
    (headNotSat_append _ flank _ hflankne (fun c hc => (hflank c hc).2.2))
  have h6 := digit0_empty (flank ++ (w4 ++ (diff ++ (w5 ++ rest))))
    (headNotSat_append _ flank _ hflankne (fun c hc => (hflank c hc).2.1))
  have h7 := multispace0_empty (flank ++ (w4 ++ (diff ++ (w5 ++ rest))))
    (headNotSat_append _ flank _ hflankne (fun c hc => (hflank c hc).2.2))
  have h8 := alpha0_eats flank (w4 ++ (diff ++ (w5 ++ rest)))
    (fun c hc => (hflank c hc).1)
    (headNotSat_append _ w4 _ hw4ne (fun c hc => (hw4 c hc).2))
  have h9 := multispace1_eats w4 (diff ++ (w5 ++ rest))
    hw4ne (fun c hc => (hw4 c hc).1)
    (headNotSat_append _ diff _ hdiffne (fun c hc => (hdiff c hc).2))
  have h10 := not_space_eats diff (w5 ++ rest)
    (fun c hc => (hdiff c hc).1)
    (headNotSat_append _ w5 _ hw5ne (fun c hc => by simp [(hw5 c hc).2]))
  have h11 := multispace1_eats w5 rest hw5ne (fun c hc => (hw5 c hc).1) hrest_ms
  have h12 := alpha0_empty rest hrest_alpha
  have hfields : parse_raw_row_fields
      (w0 ++ (pos ++ (w1 ++ (rlen ++ (w2 ++ (pct ++ (w3 ++ (flank ++
        (w4 ++ (diff ++ (w5 ++ rest))))))))))) = some (rest, ⟨pos, diff, []⟩) := by
    simp only [parse_raw_row_fields, h0, Option.some_bind, h1, h2, h3, h4,
      hpct, h5, h6, h7, h8, h9, h10, h11, h12]
  have hp : parseUsize pos = some (natOfDigits pos) := by
    unfold parseUsize
    rw [if_neg hposne, if_pos (List.all_eq_true.2 (fun c hc => (hpos c hc).1)),
      if_pos hlt]
  have hcs : checkedSub (natOfDigits pos) 1 = some (natOfDigits pos - 1) := by
    unfold checkedSub
    rw [if_pos hge]
  unfold parse_raw_repeat_spacer
  rw [hfields]
  simp only [hp, hcs]
  rfl


/-- Witness for `raw_row_empty_spacer_ok`: the spacer-less final row of the
ten-row array in the repository test suite, followed by the separator
line. -/
theorem raw_row_empty_spacer_ok_witness :
    parse_raw_repeat_spacer
      (String.toList "     " ++ (String.toList "17170" ++ (String.toList "      " ++
       (String.toList "36" ++ (String.toList "   " ++ (String.toList "100.0" ++
        (String.toList "          " ++ (String.toList "ACCGCAACGG" ++
         (String.toList "    " ++
          (String.toList "...................................." ++
           (['\n'] ++ String.toList "==========  ======"))))))))))) =
      .ok (String.toList "==========  ======")
        ⟨natOfDigits (String.toList "17170") - 1,
         natOfDigits (String.toList "17170") - 1 +
           (String.toList "....................................").length,
         String.toList "....................................", []⟩ :=
  raw_row_empty_spacer_ok
    (String.toList "     ") (String.toList "17170") (String.toList "      ")
    (String.toList "36") (String.toList "   ") (String.toList "100.0")
    (String.toList "          ") (String.toList "ACCGCAACGG")
    (String.toList "    ")
    (String.toList "....................................")
    ['\n'] (String.toList "==========  ======")
    (by decide) (by decide) (by decide) (by decide) (by decide) (by decide)
    (by decide) (by decide) (by decide) (by decide) (by rfl) (by decide)
    (by decide) (by decide) (by decide) (by decide) (by decide) (by decide)
    (by decide) (by decide) (by decide) (by decide) (by rfl) (by rfl)
    (by decide) (by decide)

end Pilercr
